import Mathlib

/-!
Verification of the gaze-to-orientation filter of
`gaze_camera_control.py` (class `Camera`), shallowly embedded over ℚ.
Python floats are modelled as rationals; a gaze coordinate that may be
`None` is modelled as `Option ℚ`.
-/

/-- State of the `Camera` class (`gaze_camera_control.py`, lines 42-53):
orientation, tunables and the two moving-average history buffers. -/
structure Camera where
  yaw : ℚ
  pitch : ℚ
  smoothing : ℚ
  sensitivity : ℚ
  dead_zone : ℚ
  gaze_history_x : List ℚ
  gaze_history_y : List ℚ
  history_size : ℕ
deriving DecidableEq, Repr

/-- `Camera.__init__` (lines 43-53): a parameterless constructor with
hard-coded tunables. -/
def Camera.init : Camera :=
  { yaw := 0
    pitch := 0
    smoothing := 15/100
    sensitivity := 60
    dead_zone := 2/10
    gaze_history_x := []
    gaze_history_y := []
    history_size := 5 }

/-- `np.sign` on rationals: 1 for positive, -1 for negative, 0 at zero. -/
def npSign (x : ℚ) : ℚ :=
  if 0 < x then 1 else if x < 0 then -1 else 0

/-- The dead-zone branch of `update_from_gaze` (lines 75-85), applied to one
axis: values inside the dead zone give 0, values outside are rescaled by
`(v - sign(v) * dead_zone) / (1 - dead_zone)`. -/
def deadZoneRescale (dead_zone v : ℚ) : ℚ :=
  if |v| < dead_zone then 0
  else (v - npSign v * dead_zone) / (1 - dead_zone)

/-- `Camera.update_from_gaze` (lines 55-96). Returns the camera unchanged
when either coordinate is `None`; otherwise centers the sample to [-1,1],
pushes it onto both history buffers (popping the oldest entry of each when
the x-buffer length exceeds `history_size`, as the source tests
`len(self.gaze_history_x)` for both pops), averages the buffers, applies
the dead zone, computes the target orientation with inverted y, clamps the
target pitch to [-80, 80], and relaxes `yaw`/`pitch` toward the target by
the `smoothing` factor. -/
def updateFromGaze (c : Camera) (gaze_x gaze_y : Option ℚ) : Camera :=
  match gaze_x, gaze_y with
  | some gx, some gy =>
      let norm_x := (gx - 1/2) * 2
      let norm_y := (gy - 1/2) * 2
      let hx0 := c.gaze_history_x ++ [norm_x]
      let hy0 := c.gaze_history_y ++ [norm_y]
      let hx := if c.history_size < hx0.length then hx0.tail else hx0
      let hy := if c.history_size < hx0.length then hy0.tail else hy0
      let smooth_x := deadZoneRescale c.dead_zone (hx.sum / (hx.length : ℚ))
      let smooth_y := deadZoneRescale c.dead_zone (hy.sum / (hy.length : ℚ))
      let target_yaw := smooth_x * c.sensitivity
      let target_pitch := max (-80) (min 80 (-smooth_y * c.sensitivity))
      { c with
        gaze_history_x := hx
        gaze_history_y := hy
        yaw := c.yaw + (target_yaw - c.yaw) * c.smoothing
        pitch := c.pitch + (target_pitch - c.pitch) * c.smoothing }
  | _, _ => c

/-- Feeding a list of per-frame samples through `update_from_gaze`. -/
def runUpdates (c : Camera) (samples : List (Option ℚ × Option ℚ)) : Camera :=
  samples.foldl (fun s p => updateFromGaze s p.1 p.2) c

/-! ### Basic lemmas about `updateFromGaze` -/

lemma updateFromGaze_absent_left (c : Camera) (gy : Option ℚ) :
    updateFromGaze c none gy = c := by
  cases gy <;> rfl

lemma updateFromGaze_absent_right (c : Camera) (gx : Option ℚ) :
    updateFromGaze c gx none = c := by
  cases gx <;> rfl

lemma updateFromGaze_smoothing (c : Camera) (gx gy : Option ℚ) :
    (updateFromGaze c gx gy).smoothing = c.smoothing := by
  cases gx <;> cases gy <;> rfl

lemma updateFromGaze_sensitivity (c : Camera) (gx gy : Option ℚ) :
    (updateFromGaze c gx gy).sensitivity = c.sensitivity := by
  cases gx <;> cases gy <;> rfl

lemma updateFromGaze_dead_zone (c : Camera) (gx gy : Option ℚ) :
    (updateFromGaze c gx gy).dead_zone = c.dead_zone := by
  cases gx <;> cases gy <;> rfl

lemma updateFromGaze_history_size (c : Camera) (gx gy : Option ℚ) :
    (updateFromGaze c gx gy).history_size = c.history_size := by
  cases gx <;> cases gy <;> rfl

lemma runUpdates_nil (c : Camera) : runUpdates c [] = c := rfl

lemma runUpdates_cons (c : Camera) (p : Option ℚ × Option ℚ)
    (rest : List (Option ℚ × Option ℚ)) :
    runUpdates c (p :: rest) = runUpdates (updateFromGaze c p.1 p.2) rest := rfl

/-- One relaxation step `p + (t - p) * s` stays inside `[-B, B]` when both
the current value and the target do and `s ∈ [0, 1]`. -/
lemma relax_abs_le (p t s B : ℚ) (hp : |p| ≤ B) (ht : |t| ≤ B)
    (h0 : 0 ≤ s) (h1 : s ≤ 1) : |p + (t - p) * s| ≤ B := by
  rw [abs_le] at *
  constructor <;> nlinarith [hp.1, hp.2, ht.1, ht.2]

/-- The clamped target pitch is inside `[-80, 80]`. -/
lemma clamp_abs_le (t : ℚ) : |max (-80) (min 80 t)| ≤ 80 := by
  rw [abs_le]
  exact ⟨le_max_left _ _, max_le (by norm_num) (min_le_left _ _)⟩

/-- One update keeps `|pitch| ≤ 80` whenever `smoothing ∈ [0, 1]`. -/
lemma updateFromGaze_pitch_abs (c : Camera) (gx gy : Option ℚ)
    (hp : |c.pitch| ≤ 80) (h0 : 0 ≤ c.smoothing) (h1 : c.smoothing ≤ 1) :
    |(updateFromGaze c gx gy).pitch| ≤ 80 := by
  cases gx with
  | none => rwa [updateFromGaze_absent_left]
  | some gx =>
    cases gy with
    | none => rwa [updateFromGaze_absent_right]
    | some gy => exact relax_abs_le _ _ _ _ hp (clamp_abs_le _) h0 h1

/-- Running any sample list keeps `|pitch| ≤ 80`. -/
lemma runUpdates_pitch_abs (samples : List (Option ℚ × Option ℚ)) (c : Camera)
    (hp : |c.pitch| ≤ 80) (h0 : 0 ≤ c.smoothing) (h1 : c.smoothing ≤ 1) :
    |(runUpdates c samples).pitch| ≤ 80 := by
  induction samples generalizing c with
  | nil => exact hp
  | cons p rest ih =>
    rw [runUpdates_cons]
    exact ih _ (updateFromGaze_pitch_abs c p.1 p.2 hp h0 h1)
      (by rwa [updateFromGaze_smoothing]) (by rwa [updateFromGaze_smoothing])

/-! ### Claim C1 -/

/-- Claim C1: starting from a filter with `yaw = pitch = 0` and
`smoothing ∈ (0, 1]`, after every call of `update_from_gaze` — i.e. after
running any prefix of any sample sequence — the pitch satisfies
`|pitch| ≤ 80`. -/
theorem claimC1_pitch_limit (c : Camera)
    (samples : List (Option ℚ × Option ℚ)) (n : ℕ)
    (_hyaw : c.yaw = 0) (hpitch : c.pitch = 0)
    (hs0 : 0 < c.smoothing) (hs1 : c.smoothing ≤ 1) :
    |(runUpdates c (samples.take n)).pitch| ≤ 80 :=
  runUpdates_pitch_abs _ c (by rw [hpitch]; norm_num) (le_of_lt hs0) hs1

/-- Witness for C1 at a concrete run. -/
theorem claimC1_pitch_limit_witness :
    Camera.init.yaw = 0 ∧ Camera.init.pitch = 0 ∧
    0 < Camera.init.smoothing ∧ Camera.init.smoothing ≤ 1 ∧
    |(runUpdates Camera.init
        ([(some 1, some 0), (none, some 1)].take 2)).pitch| ≤ 80 :=
  ⟨rfl, rfl, by norm_num [Camera.init], by norm_num [Camera.init],
    claimC1_pitch_limit Camera.init [(some 1, some 0), (none, some 1)] 2
      rfl rfl (by norm_num [Camera.init]) (by norm_num [Camera.init])⟩

/-! ### Claim C2 -/

/-- Claim C2: an absent sample (either coordinate `None`) leaves the whole
camera state — in particular the history buffers, `yaw` and `pitch` —
exactly unchanged. -/
theorem claimC2_absent_no_mutation (c : Camera) (gx gy : Option ℚ)
    (h : gx = none ∨ gy = none) :
    updateFromGaze c gx gy = c := by
  rcases h with h | h
  · rw [h]; exact updateFromGaze_absent_left c gy
  · rw [h]; exact updateFromGaze_absent_right c gx

/-- Witness for C2 at a concrete state and sample. -/
theorem claimC2_absent_no_mutation_witness :
    ((some (2:ℚ) = none ∨ (none : Option ℚ) = none)) ∧
    updateFromGaze Camera.init (some 2) none = Camera.init :=
  ⟨Or.inr rfl, claimC2_absent_no_mutation Camera.init (some 2) none (Or.inr rfl)⟩

/-! ### Claim C10 -/

/-- One update preserves equality of the two history-buffer lengths. -/
lemma updateFromGaze_hist_len_eq (c : Camera) (gx gy : Option ℚ)
    (h : c.gaze_history_x.length = c.gaze_history_y.length) :
    (updateFromGaze c gx gy).gaze_history_x.length =
      (updateFromGaze c gx gy).gaze_history_y.length := by
  cases gx with
  | none => rwa [updateFromGaze_absent_left]
  | some gx =>
    cases gy with
    | none => rwa [updateFromGaze_absent_right]
    | some gy =>
      simp only [updateFromGaze]
      split <;> simp [h]

/-- Claim C10: after every call to `update_from_gaze` (absent or not),
starting from construction, the x-axis history buffer and the y-axis
history buffer have exactly the same length. -/
theorem claimC10_hist_lengths_equal
    (samples : List (Option ℚ × Option ℚ)) (n : ℕ) :
    (runUpdates Camera.init (samples.take n)).gaze_history_x.length =
      (runUpdates Camera.init (samples.take n)).gaze_history_y.length := by
  have aux : ∀ (l : List (Option ℚ × Option ℚ)) (c : Camera),
      c.gaze_history_x.length = c.gaze_history_y.length →
      (runUpdates c l).gaze_history_x.length =
        (runUpdates c l).gaze_history_y.length := by
    intro l
    induction l with
    | nil => intro c h; exact h
    | cons p rest ih =>
      intro c h
      rw [runUpdates_cons]
      exact ih _ (updateFromGaze_hist_len_eq c p.1 p.2 h)
  exact aux _ Camera.init rfl

/-! ### Claim C5 -/

/-- The source's numerator `v - sign(v) * dz` equals the spec's
`sign(v) * (|v| - dz)` for every `v` (including `v = 0`, where both are 0). -/
lemma sub_npSign_mul (v dz : ℚ) :
    v - npSign v * dz = npSign v * (|v| - dz) := by
  unfold npSign
  rcases lt_trichotomy 0 v with hv | hv | hv
  · rw [if_pos hv, abs_of_pos hv]; ring
  · rw [← hv]; norm_num
  · rw [if_neg (by linarith), if_pos hv, abs_of_neg hv]; ring

/-- Claim C5: for `dead_zone ∈ [0,1)`, the dead-zone rescaling equals 0
inside the dead zone, equals `sign(v) * (|v| - dz) / (1 - dz)` outside,
maps ±1 to ±1, and the two branches agree at the boundary `|v| = dz`. -/
theorem claimC5_dead_zone_rescale (dz v : ℚ) (_h0 : 0 ≤ dz) (h1 : dz < 1) :
    (|v| < dz → deadZoneRescale dz v = 0) ∧
    (dz ≤ |v| → deadZoneRescale dz v = npSign v * (|v| - dz) / (1 - dz)) ∧
    deadZoneRescale dz 1 = 1 ∧
    deadZoneRescale dz (-1) = -1 ∧
    (|v| = dz → deadZoneRescale dz v = 0 ∧ npSign v * (|v| - dz) / (1 - dz) = 0) := by
  have hne : (1 : ℚ) - dz ≠ 0 := by linarith
  have houter : dz ≤ |v| → deadZoneRescale dz v = npSign v * (|v| - dz) / (1 - dz) := by
    intro hle
    rw [deadZoneRescale, if_neg (not_lt.mpr hle), sub_npSign_mul]
  refine ⟨?_, houter, ?_, ?_, ?_⟩
  · intro hlt
    rw [deadZoneRescale, if_pos hlt]
  · rw [deadZoneRescale, if_neg (by rw [abs_one]; exact not_lt.mpr h1.le)]
    rw [show npSign 1 = 1 by norm_num [npSign]]
    rw [one_mul, div_self hne]
  · rw [deadZoneRescale, if_neg (by rw [abs_neg, abs_one]; exact not_lt.mpr h1.le)]
    rw [show npSign (-1) = -1 by norm_num [npSign]]
    rw [div_eq_iff hne]; ring
  · intro hb
    have h2 := houter (le_of_eq hb.symm)
    refine ⟨?_, ?_⟩
    · rw [h2, hb, sub_self, mul_zero, zero_div]
    · rw [hb, sub_self, mul_zero, zero_div]

/-- Witness for C5 at `dead_zone = 1/5`, `v = 1/10`. -/
theorem claimC5_dead_zone_rescale_witness :
    ((0:ℚ) ≤ 1/5 ∧ (1/5:ℚ) < 1) ∧
    ((|(1/10 : ℚ)| < 1/5 → deadZoneRescale (1/5) (1/10) = 0) ∧
     ((1/5:ℚ) ≤ |(1/10 : ℚ)| →
        deadZoneRescale (1/5) (1/10) =
          npSign (1/10) * (|(1/10:ℚ)| - 1/5) / (1 - 1/5)) ∧
     deadZoneRescale (1/5) 1 = 1 ∧
     deadZoneRescale (1/5) (-1) = -1 ∧
     (|(1/10:ℚ)| = 1/5 → deadZoneRescale (1/5) (1/10) = 0 ∧
        npSign (1/10) * (|(1/10:ℚ)| - 1/5) / (1 - 1/5) = 0)) :=
  ⟨⟨by norm_num, by norm_num⟩,
    claimC5_dead_zone_rescale (1/5) (1/10) (by norm_num) (by norm_num)⟩

/-! ### Claim C6 -/

/-- The camera state of the spec's concrete scenario: `smoothing = 0.5`,
`sensitivity = 60`, `dead_zone = 0.2`, `history_size = 1`, fresh
orientation and history. The pitch limit is the source's hard-coded 80. -/
def cameraC6 : Camera :=
  { yaw := 0
    pitch := 0
    smoothing := 1/2
    sensitivity := 60
    dead_zone := 2/10
    gaze_history_x := []
    gaze_history_y := []
    history_size := 1 }

/-- Claim C6: feeding the sample `(1.0, 0.5)` once to the scenario filter
yields `yaw = 30` and `pitch = 0`; feeding it a second time yields
`yaw = 45`. -/
theorem claimC6_concrete_scenario :
    (updateFromGaze cameraC6 (some 1) (some (1/2))).yaw = 30 ∧
    (updateFromGaze cameraC6 (some 1) (some (1/2))).pitch = 0 ∧
    (updateFromGaze (updateFromGaze cameraC6 (some 1) (some (1/2)))
        (some 1) (some (1/2))).yaw = 45 := by
  refine ⟨?_, ?_, ?_⟩ <;>
    norm_num [updateFromGaze, cameraC6, deadZoneRescale, npSign]

/-! ### History-buffer shape lemmas -/

/-- Shape of the x-buffer after a non-absent update: append the centered
x, then drop the head when the capacity is exceeded. -/
lemma updateFromGaze_hist_x (c : Camera) (gx gy : ℚ) :
    (updateFromGaze c (some gx) (some gy)).gaze_history_x =
      if c.history_size < c.gaze_history_x.length + 1
      then (c.gaze_history_x ++ [(gx - 1/2) * 2]).tail
      else c.gaze_history_x ++ [(gx - 1/2) * 2] := by
  simp [updateFromGaze]

/-- Shape of the y-buffer after a non-absent update. The pop condition is
the x-buffer length, exactly as in the source (line 68). -/
lemma updateFromGaze_hist_y (c : Camera) (gx gy : ℚ) :
    (updateFromGaze c (some gx) (some gy)).gaze_history_y =
      if c.history_size < c.gaze_history_x.length + 1
      then (c.gaze_history_y ++ [(gy - 1/2) * 2]).tail
      else c.gaze_history_y ++ [(gy - 1/2) * 2] := by
  simp [updateFromGaze]

lemma tail_append_singleton (l : List ℚ) (x : ℚ) (hl : l ≠ []) :
    (l ++ [x]).tail = l.tail ++ [x] := by
  cases l with
  | nil => exact absurd rfl hl
  | cons a t => rfl

lemma tail_append_getLast? (l : List ℚ) (x : ℚ) (hl : l ≠ []) :
    ((l ++ [x]).tail).getLast? = some x := by
  rw [tail_append_singleton l x hl]
  exact List.getLast?_concat _

/-! ### Claim C4 (corrected) -/

/-- Counterexample to C4 as stated: the coordinate 2 is malformed (outside
[0,1]), yet `update_from_gaze` on a fresh filter with sample `(2, 0.5)`
does not behave like an absent sample — the state changes. -/
theorem claimC4_counterexample :
    ((2:ℚ) < 0 ∨ 1 < (2:ℚ)) ∧
    updateFromGaze Camera.init (some 2) (some (1/2)) ≠ Camera.init := by
  refine ⟨Or.inr (by norm_num), ?_⟩
  intro h
  have h2 := congrArg Camera.gaze_history_x h
  simp [updateFromGaze, Camera.init] at h2

/-- Claim C4 amended: `update_from_gaze` treats only `None` coordinates as
absent; a malformed (out-of-range) sample is propagated — its centered
coordinates are appended to the history buffers and enter the arithmetic —
though the pitch-limit clamp still bounds `|pitch|` by 80. -/
theorem claimC4_amended_malformed_propagates (c : Camera) (gx gy : ℚ)
    (hlen : c.gaze_history_x.length = c.gaze_history_y.length)
    (hhs : 1 ≤ c.history_size)
    (hp : |c.pitch| ≤ 80) (h0 : 0 ≤ c.smoothing) (h1 : c.smoothing ≤ 1) :
    (updateFromGaze c (some gx) (some gy)).gaze_history_x.getLast? =
        some ((gx - 1/2) * 2) ∧
    (updateFromGaze c (some gx) (some gy)).gaze_history_y.getLast? =
        some ((gy - 1/2) * 2) ∧
    |(updateFromGaze c (some gx) (some gy)).pitch| ≤ 80 := by
  refine ⟨?_, ?_, updateFromGaze_pitch_abs c _ _ hp h0 h1⟩
  · rw [updateFromGaze_hist_x]
    by_cases hc : c.history_size < c.gaze_history_x.length + 1
    · rw [if_pos hc]
      apply tail_append_getLast?
      intro hnil
      rw [hnil] at hc
      simp at hc
      omega
    · rw [if_neg hc]
      exact List.getLast?_concat _
  · rw [updateFromGaze_hist_y]
    by_cases hc : c.history_size < c.gaze_history_x.length + 1
    · rw [if_pos hc]
      apply tail_append_getLast?
      intro hnil
      rw [hnil, List.length_nil] at hlen
      omega
    · rw [if_neg hc]
      exact List.getLast?_concat _

/-- Witness for the amended C4 at a fresh filter and malformed sample. -/
theorem claimC4_amended_witness :
    (Camera.init.gaze_history_x.length = Camera.init.gaze_history_y.length ∧
     1 ≤ Camera.init.history_size ∧ |Camera.init.pitch| ≤ 80 ∧
     0 ≤ Camera.init.smoothing ∧ Camera.init.smoothing ≤ 1) ∧
    ((updateFromGaze Camera.init (some 2) (some (1/2))).gaze_history_x.getLast? =
        some (((2:ℚ) - 1/2) * 2) ∧
     (updateFromGaze Camera.init (some 2) (some (1/2))).gaze_history_y.getLast? =
        some (((1/2:ℚ) - 1/2) * 2) ∧
     |(updateFromGaze Camera.init (some 2) (some (1/2))).pitch| ≤ 80) :=
  ⟨⟨rfl, by norm_num [Camera.init], by norm_num [Camera.init],
      by norm_num [Camera.init], by norm_num [Camera.init]⟩,
    claimC4_amended_malformed_propagates Camera.init 2 (1/2) rfl
      (by norm_num [Camera.init]) (by norm_num [Camera.init])
      (by norm_num [Camera.init]) (by norm_num [Camera.init])⟩

/-! ### Claim C7 -/

/-- Length of the x-buffer after one non-absent update: it grows by one up
to the cap and then stays at the cap. -/
lemma updateFromGaze_hist_x_len (c : Camera) (gx gy : ℚ)
    (hlen : c.gaze_history_x.length ≤ c.history_size) :
    (updateFromGaze c (some gx) (some gy)).gaze_history_x.length =
      min (c.gaze_history_x.length + 1) c.history_size := by
  rw [updateFromGaze_hist_x]
  by_cases hc : c.history_size < c.gaze_history_x.length + 1
  · rw [if_pos hc]
    simp only [List.length_tail, List.length_append, List.length_cons,
      List.length_nil]
    omega
  · rw [if_neg hc]
    simp only [List.length_append, List.length_cons, List.length_nil]
    omega

/-- From an in-cap state, running non-absent samples makes the x-buffer
length `min (initial + fed) capacity`. -/
lemma runUpdates_hist_x_len (ps : List (ℚ × ℚ)) (c : Camera)
    (hlen : c.gaze_history_x.length ≤ c.history_size) :
    (runUpdates c (ps.map fun q => (some q.1, some q.2))).gaze_history_x.length =
      min (c.gaze_history_x.length + ps.length) c.history_size := by
  induction ps generalizing c with
  | nil =>
    simp only [List.map_nil, runUpdates_nil, List.length_nil, Nat.add_zero]
    omega
  | cons q rest ih =>
    simp only [List.map_cons, List.length_cons]
    rw [runUpdates_cons]
    have hstep := updateFromGaze_hist_x_len c q.1 q.2 hlen
    have hsz := updateFromGaze_history_size c (some q.1) (some q.2)
    have hle : (updateFromGaze c (some q.1) (some q.2)).gaze_history_x.length ≤
        (updateFromGaze c (some q.1) (some q.2)).history_size := by
      rw [hstep, hsz]; omega
    rw [ih _ hle, hstep, hsz]
    omega

/-- Length of the y-buffer after one non-absent update: the pop is
guarded by the x-buffer length (source line 68), so the bound needs the
buffer lengths to agree, as they do in every state reachable from
construction. -/
lemma updateFromGaze_hist_y_len (c : Camera) (gx gy : ℚ)
    (hlen : c.gaze_history_x.length ≤ c.history_size)
    (hxy : c.gaze_history_x.length = c.gaze_history_y.length) :
    (updateFromGaze c (some gx) (some gy)).gaze_history_y.length =
      min (c.gaze_history_y.length + 1) c.history_size := by
  rw [updateFromGaze_hist_y]
  by_cases hc : c.history_size < c.gaze_history_x.length + 1
  · rw [if_pos hc]
    simp only [List.length_tail, List.length_append, List.length_cons,
      List.length_nil]
    omega
  · rw [if_neg hc]
    simp only [List.length_append, List.length_cons, List.length_nil]
    omega

/-- Running any sample list preserves equality of the two buffer
lengths. -/
lemma runUpdates_hist_len_eq (l : List (Option ℚ × Option ℚ)) (c : Camera)
    (h : c.gaze_history_x.length = c.gaze_history_y.length) :
    (runUpdates c l).gaze_history_x.length =
      (runUpdates c l).gaze_history_y.length := by
  induction l generalizing c with
  | nil => exact h
  | cons p rest ih =>
    rw [runUpdates_cons]
    exact ih _ (updateFromGaze_hist_len_eq c p.1 p.2 h)

/-- Claim C7: each non-absent update appends the centered sample to both
history buffers; when a buffer is full, exactly its oldest entry is
evicted; each buffer's length after the update is
`min (previous + 1) history_size`; and from fresh (empty) buffers the
lengths after feeding n non-absent samples are `min n history_size` —
they grow from 0 to the cap and stay there. The hypotheses (in-cap
x-buffer, equal buffer lengths) hold in every state reachable from
construction. -/
theorem claimC7_history_fifo (c : Camera) (gx gy : ℚ)
    (hlen : c.gaze_history_x.length ≤ c.history_size)
    (hxy : c.gaze_history_x.length = c.gaze_history_y.length)
    (hhs : 1 ≤ c.history_size) :
    ((updateFromGaze c (some gx) (some gy)).gaze_history_x =
      if c.gaze_history_x.length = c.history_size
      then c.gaze_history_x.tail ++ [(gx - 1/2) * 2]
      else c.gaze_history_x ++ [(gx - 1/2) * 2]) ∧
    ((updateFromGaze c (some gx) (some gy)).gaze_history_y =
      if c.gaze_history_y.length = c.history_size
      then c.gaze_history_y.tail ++ [(gy - 1/2) * 2]
      else c.gaze_history_y ++ [(gy - 1/2) * 2]) ∧
    (updateFromGaze c (some gx) (some gy)).gaze_history_x.length =
      min (c.gaze_history_x.length + 1) c.history_size ∧
    (updateFromGaze c (some gx) (some gy)).gaze_history_y.length =
      min (c.gaze_history_y.length + 1) c.history_size ∧
    ∀ (c0 : Camera), c0.gaze_history_x = [] → c0.gaze_history_y = [] →
      ∀ ps : List (ℚ × ℚ),
        (runUpdates c0 (ps.map fun q => (some q.1, some q.2))).gaze_history_x.length =
          min ps.length c0.history_size ∧
        (runUpdates c0 (ps.map fun q => (some q.1, some q.2))).gaze_history_y.length =
          min ps.length c0.history_size := by
  refine ⟨?_, ?_, updateFromGaze_hist_x_len c gx gy hlen,
    updateFromGaze_hist_y_len c gx gy hlen hxy, ?_⟩
  · rw [updateFromGaze_hist_x]
    by_cases hc : c.history_size < c.gaze_history_x.length + 1
    · have hEq : c.gaze_history_x.length = c.history_size := by omega
      rw [if_pos hc, if_pos hEq,
        tail_append_singleton _ _ (by intro hnil; rw [hnil] at hEq; simp at hEq; omega)]
    · have hNe : ¬(c.gaze_history_x.length = c.history_size) := by omega
      rw [if_neg hc, if_neg hNe]
  · rw [updateFromGaze_hist_y]
    by_cases hc : c.history_size < c.gaze_history_x.length + 1
    · have hEqy : c.gaze_history_y.length = c.history_size := by omega
      rw [if_pos hc, if_pos hEqy,
        tail_append_singleton _ _
          (by intro hnil; rw [hnil] at hEqy; simp at hEqy; omega)]
    · have hNey : ¬(c.gaze_history_y.length = c.history_size) := by omega
      rw [if_neg hc, if_neg hNey]
  · intro c0 h0 h0y ps
    have hx := runUpdates_hist_x_len ps c0 (by simp [h0])
    rw [h0] at hx
    have hy := runUpdates_hist_len_eq (ps.map fun q => (some q.1, some q.2)) c0
      (by rw [h0, h0y])
    constructor
    · simpa using hx
    · rw [← hy]
      simpa using hx

/-- Witness for C7 at the scenario filter (empty buffers, capacity 1). -/
theorem claimC7_history_fifo_witness :
    (cameraC6.gaze_history_x.length ≤ cameraC6.history_size ∧
     cameraC6.gaze_history_x.length = cameraC6.gaze_history_y.length ∧
     1 ≤ cameraC6.history_size) ∧
    (((updateFromGaze cameraC6 (some 1) (some 0)).gaze_history_x =
      if cameraC6.gaze_history_x.length = cameraC6.history_size
      then cameraC6.gaze_history_x.tail ++ [((1:ℚ) - 1/2) * 2]
      else cameraC6.gaze_history_x ++ [((1:ℚ) - 1/2) * 2]) ∧
    ((updateFromGaze cameraC6 (some 1) (some 0)).gaze_history_y =
      if cameraC6.gaze_history_y.length = cameraC6.history_size
      then cameraC6.gaze_history_y.tail ++ [((0:ℚ) - 1/2) * 2]
      else cameraC6.gaze_history_y ++ [((0:ℚ) - 1/2) * 2]) ∧
    (updateFromGaze cameraC6 (some 1) (some 0)).gaze_history_x.length =
      min (cameraC6.gaze_history_x.length + 1) cameraC6.history_size ∧
    (updateFromGaze cameraC6 (some 1) (some 0)).gaze_history_y.length =
      min (cameraC6.gaze_history_y.length + 1) cameraC6.history_size ∧
    ∀ (c0 : Camera), c0.gaze_history_x = [] → c0.gaze_history_y = [] →
      ∀ ps : List (ℚ × ℚ),
        (runUpdates c0 (ps.map fun q => (some q.1, some q.2))).gaze_history_x.length =
          min ps.length c0.history_size ∧
        (runUpdates c0 (ps.map fun q => (some q.1, some q.2))).gaze_history_y.length =
          min ps.length c0.history_size) :=
  ⟨⟨by norm_num [cameraC6], rfl, by norm_num [cameraC6]⟩,
    claimC7_history_fifo cameraC6 1 0 (by norm_num [cameraC6]) rfl
      (by norm_num [cameraC6])⟩

/-! ### Claim C3 (spec-modelled construction) -/

/-- The configuration record of spec §3 (`FilterConfig`). -/
structure FilterConfig where
  smoothing : ℚ
  sensitivity : ℚ
  dead_zone : ℚ
  history_size : ℕ
  pitch_limit : ℚ
deriving DecidableEq, Repr

/-- Modelled from the spec: the validating constructor
`new(config: FilterConfig) -> OrientationFilter` of spec §4.1. It is not
under `src/`: `Camera.__init__` in `src/gaze_camera_control.py` takes no
configuration, and `demo_pygame_gaze.py` (line 21) prefers importing
`Camera` from `gaze_camera_embedded.py`, a module of this repository that
is not among the provided sources. Per the spec's words, construction
fails (returns `none`) iff `smoothing` is outside (0,1], `history_size`
is 0, or `dead_zone` is outside [0,1); otherwise it yields a fresh filter
holding the configuration. -/
def OrientationFilter.new (cfg : FilterConfig) : Option Camera :=
  if 0 < cfg.smoothing ∧ cfg.smoothing ≤ 1 ∧ cfg.history_size ≠ 0 ∧
      0 ≤ cfg.dead_zone ∧ cfg.dead_zone < 1 then
    some
      { yaw := 0
        pitch := 0
        smoothing := cfg.smoothing
        sensitivity := cfg.sensitivity
        dead_zone := cfg.dead_zone
        gaze_history_x := []
        gaze_history_y := []
        history_size := cfg.history_size }
  else none

/-- Claim C3: construction succeeds exactly when `smoothing ∈ (0,1]`,
`history_size ≠ 0` and `dead_zone ∈ [0,1)`; consequently every
constructed filter instance holds a valid configuration. -/
theorem claimC3_construction_validation (cfg : FilterConfig) :
    ((OrientationFilter.new cfg).isSome ↔
      (0 < cfg.smoothing ∧ cfg.smoothing ≤ 1 ∧ cfg.history_size ≠ 0 ∧
       0 ≤ cfg.dead_zone ∧ cfg.dead_zone < 1)) ∧
    ∀ s : Camera, OrientationFilter.new cfg = some s →
      0 < s.smoothing ∧ s.smoothing ≤ 1 ∧ s.history_size ≠ 0 ∧
      0 ≤ s.dead_zone ∧ s.dead_zone < 1 := by
  constructor
  · by_cases h : 0 < cfg.smoothing ∧ cfg.smoothing ≤ 1 ∧
        cfg.history_size ≠ 0 ∧ 0 ≤ cfg.dead_zone ∧ cfg.dead_zone < 1
    · simp only [OrientationFilter.new, if_pos h, Option.isSome_some]
      exact iff_of_true trivial h
    · simp only [OrientationFilter.new, if_neg h, Option.isSome_none]
      exact iff_of_false (by simp) h
  · intro s hs
    unfold OrientationFilter.new at hs
    by_cases h : 0 < cfg.smoothing ∧ cfg.smoothing ≤ 1 ∧
        cfg.history_size ≠ 0 ∧ 0 ≤ cfg.dead_zone ∧ cfg.dead_zone < 1
    · rw [if_pos h] at hs
      have h2 := Option.some.inj hs
      subst h2
      exact h
    · rw [if_neg h] at hs
      exact Option.noConfusion hs

/-- Witness for C3: a valid configuration is accepted and an invalid one
(`smoothing = 0`) is rejected. -/
theorem claimC3_construction_validation_witness :
    (OrientationFilter.new
        { smoothing := 1/2, sensitivity := 60, dead_zone := 1/5,
          history_size := 1, pitch_limit := 80 }).isSome ∧
    ¬(OrientationFilter.new
        { smoothing := 0, sensitivity := 60, dead_zone := 1/5,
          history_size := 1, pitch_limit := 80 }).isSome :=
  ⟨(claimC3_construction_validation _).1.mpr
      (by refine ⟨by norm_num, by norm_num, by norm_num, by norm_num, by norm_num⟩),
    fun h => absurd ((claimC3_construction_validation _).1.mp h).1 (by norm_num)⟩

/-! ### Claim C9 (spec-modelled reset) -/

/-- Modelled from the spec: `reset()` of spec §4.1. `Camera` in
`src/gaze_camera_control.py` defines no reset method; `demo_pygame_gaze.py`
(line 21) prefers importing `Camera` from `gaze_camera_embedded.py`, a
module of this repository that is not among the provided sources. Per the
spec's words, `reset` clears `history` and sets `yaw = pitch = 0`,
leaving the configuration fields for reuse across sessions. -/
def Camera.reset (c : Camera) : Camera :=
  { c with yaw := 0, pitch := 0, gaze_history_x := [], gaze_history_y := [] }

/-- A filter state with stale orientation and history but the same
configuration as a freshly constructed `Camera`. -/
def cameraDirty : Camera :=
  { yaw := 7
    pitch := -3
    smoothing := 15/100
    sensitivity := 60
    dead_zone := 2/10
    gaze_history_x := [1]
    gaze_history_y := [0]
    history_size := 5 }

/-- Claim C9: `reset` clears the history buffers and zeroes `yaw` and
`pitch`; a reset filter whose configuration matches the constructor's is
exactly the freshly constructed filter, so replaying any sample sequence
yields the same states (hence the same output sequence) as from a fresh
filter. -/
theorem claimC9_reset_replay (c : Camera)
    (h1 : c.smoothing = Camera.init.smoothing)
    (h2 : c.sensitivity = Camera.init.sensitivity)
    (h3 : c.dead_zone = Camera.init.dead_zone)
    (h4 : c.history_size = Camera.init.history_size) :
    (Camera.reset c).yaw = 0 ∧ (Camera.reset c).pitch = 0 ∧
    (Camera.reset c).gaze_history_x = [] ∧
    (Camera.reset c).gaze_history_y = [] ∧
    Camera.reset c = Camera.init ∧
    ∀ samples : List (Option ℚ × Option ℚ),
      runUpdates (Camera.reset c) samples = runUpdates Camera.init samples := by
  have hEq : Camera.reset c = Camera.init := by
    obtain ⟨y, p, sm, se, dz, hx, hy, hs⟩ := c
    simp only [Camera.reset, Camera.init, Camera.mk.injEq]
    exact ⟨trivial, trivial, h1, h2, h3, trivial, trivial, h4⟩
  exact ⟨rfl, rfl, rfl, rfl, hEq, fun samples => by rw [hEq]⟩

/-- Witness for C9 at a concrete stale state. -/
theorem claimC9_reset_replay_witness :
    (cameraDirty.smoothing = Camera.init.smoothing ∧
     cameraDirty.sensitivity = Camera.init.sensitivity ∧
     cameraDirty.dead_zone = Camera.init.dead_zone ∧
     cameraDirty.history_size = Camera.init.history_size) ∧
    ((Camera.reset cameraDirty).yaw = 0 ∧ (Camera.reset cameraDirty).pitch = 0 ∧
     (Camera.reset cameraDirty).gaze_history_x = [] ∧
     (Camera.reset cameraDirty).gaze_history_y = [] ∧
     Camera.reset cameraDirty = Camera.init ∧
     ∀ samples : List (Option ℚ × Option ℚ),
       runUpdates (Camera.reset cameraDirty) samples =
         runUpdates Camera.init samples) :=
  ⟨⟨rfl, rfl, rfl, rfl⟩, claimC9_reset_replay cameraDirty rfl rfl rfl rfl⟩

/-! ### Claim C8: constant input -/

/-- The target yaw computed by `update_from_gaze` (line 88) when the
smoothed centered value equals the centered sample `(gx - 0.5) * 2`. -/
def targetYaw (c : Camera) (gx : ℚ) : ℚ :=
  deadZoneRescale c.dead_zone ((gx - 1/2) * 2) * c.sensitivity

/-- The clamped target pitch computed by `update_from_gaze` (lines 89-92)
when the smoothed centered value equals the centered sample. -/
def targetPitch (c : Camera) (gy : ℚ) : ℚ :=
  max (-80) (min 80 (-(deadZoneRescale c.dead_zone ((gy - 1/2) * 2)) * c.sensitivity))

/-- Feeding the same non-absent sample `(gx, gy)` for n consecutive
updates. -/
def runConst (c : Camera) (gx gy : ℚ) : ℕ → Camera
  | 0 => c
  | n + 1 => updateFromGaze (runConst c gx gy n) (some gx) (some gy)

lemma runConst_succ (c : Camera) (gx gy : ℚ) (n : ℕ) :
    runConst c gx gy (n + 1) =
      updateFromGaze (runConst c gx gy n) (some gx) (some gy) := rfl

/-- `runConst` agrees with running a constant replicated sample list. -/
lemma runConst_eq_runUpdates (c : Camera) (gx gy : ℚ) (n : ℕ) :
    runConst c gx gy n = runUpdates c (List.replicate n (some gx, some gy)) := by
  have shift : ∀ (m : ℕ) (d : Camera),
      runConst d gx gy (m + 1) =
        runConst (updateFromGaze d (some gx) (some gy)) gx gy m := by
    intro m
    induction m with
    | zero => intro d; rfl
    | succ m ih =>
      intro d
      rw [runConst_succ, ih d, ← runConst_succ]
  induction n generalizing c with
  | zero => rfl
  | succ n ih =>
    rw [List.replicate_succ, runUpdates_cons, shift n c]
    exact ih _

lemma runConst_smoothing (c : Camera) (gx gy : ℚ) (n : ℕ) :
    (runConst c gx gy n).smoothing = c.smoothing := by
  induction n with
  | zero => rfl
  | succ n ih => rw [runConst_succ, updateFromGaze_smoothing]; exact ih

lemma runConst_sensitivity (c : Camera) (gx gy : ℚ) (n : ℕ) :
    (runConst c gx gy n).sensitivity = c.sensitivity := by
  induction n with
  | zero => rfl
  | succ n ih => rw [runConst_succ, updateFromGaze_sensitivity]; exact ih

lemma runConst_dead_zone (c : Camera) (gx gy : ℚ) (n : ℕ) :
    (runConst c gx gy n).dead_zone = c.dead_zone := by
  induction n with
  | zero => rfl
  | succ n ih => rw [runConst_succ, updateFromGaze_dead_zone]; exact ih

lemma runConst_history_size (c : Camera) (gx gy : ℚ) (n : ℕ) :
    (runConst c gx gy n).history_size = c.history_size := by
  induction n with
  | zero => rfl
  | succ n ih => rw [runConst_succ, updateFromGaze_history_size]; exact ih

/-- The new yaw in terms of the post-update x-buffer: the smoothed value
is the mean of that buffer. -/
lemma updateFromGaze_yaw (c : Camera) (gx gy : ℚ) :
    (updateFromGaze c (some gx) (some gy)).yaw =
      c.yaw + (deadZoneRescale c.dead_zone
          ((updateFromGaze c (some gx) (some gy)).gaze_history_x.sum /
            ((updateFromGaze c (some gx) (some gy)).gaze_history_x.length : ℚ)) *
          c.sensitivity - c.yaw) * c.smoothing := by
  simp [updateFromGaze]

/-- The new pitch in terms of the post-update y-buffer. -/
lemma updateFromGaze_pitch (c : Camera) (gx gy : ℚ) :
    (updateFromGaze c (some gx) (some gy)).pitch =
      c.pitch + (max (-80) (min 80 (-(deadZoneRescale c.dead_zone
          ((updateFromGaze c (some gx) (some gy)).gaze_history_y.sum /
            ((updateFromGaze c (some gx) (some gy)).gaze_history_y.length : ℚ))) *
          c.sensitivity)) - c.pitch) * c.smoothing := by
  simp [updateFromGaze]

/-- The mean of a nonempty constant buffer is its constant value. -/
lemma avg_replicate (k : ℕ) (x : ℚ) (hk : k ≠ 0) :
    (List.replicate k x).sum / ((List.replicate k x).length : ℚ) = x := by
  have hk0 : (k : ℚ) ≠ 0 := Nat.cast_ne_zero.mpr hk
  rw [List.sum_replicate, List.length_replicate, nsmul_eq_mul]
  field_simp

/-- Pushing the constant value onto a constant buffer of length `m ≤ cap`
gives a constant buffer of length `min (m+1) cap`. -/
lemma push_replicate (m hs : ℕ) (x : ℚ) (hm : m ≤ hs) :
    (if hs < m + 1 then (List.replicate m x ++ [x]).tail
     else List.replicate m x ++ [x]) =
      List.replicate (min (m + 1) hs) x := by
  rw [← List.replicate_succ']
  by_cases hc : hs < m + 1
  · rw [if_pos hc, List.replicate_succ, List.tail_cons]
    congr 1
    omega
  · rw [if_neg hc]
    congr 1
    omega

/-- Closed form of a constant-input run from a fresh filter: the history
buffers hold copies of the centered sample, and `yaw`/`pitch` follow the
geometric relaxation `target * (1 - (1 - smoothing)^n)`. -/
lemma runConst_spec (c0 : Camera) (gx gy : ℚ)
    (hy0 : c0.yaw = 0) (hp0 : c0.pitch = 0)
    (hhx : c0.gaze_history_x = []) (hhy : c0.gaze_history_y = [])
    (hhs : 1 ≤ c0.history_size) (n : ℕ) :
    (runConst c0 gx gy n).gaze_history_x =
        List.replicate (min n c0.history_size) ((gx - 1/2) * 2) ∧
    (runConst c0 gx gy n).gaze_history_y =
        List.replicate (min n c0.history_size) ((gy - 1/2) * 2) ∧
    (runConst c0 gx gy n).yaw =
        targetYaw c0 gx * (1 - (1 - c0.smoothing) ^ n) ∧
    (runConst c0 gx gy n).pitch =
        targetPitch c0 gy * (1 - (1 - c0.smoothing) ^ n) := by
  induction n with
  | zero => simp [runConst, hhx, hhy, hy0, hp0]
  | succ n ih =>
    obtain ⟨ihx, ihy, ihyaw, ihpitch⟩ := ih
    have hm : min n c0.history_size ≤ c0.history_size := min_le_right _ _
    have hx' : (runConst c0 gx gy (n+1)).gaze_history_x =
        List.replicate (min (n+1) c0.history_size) ((gx - 1/2) * 2) := by
      rw [runConst_succ, updateFromGaze_hist_x, runConst_history_size, ihx,
        List.length_replicate, push_replicate _ _ _ hm]
      congr 1
      omega
    have hy' : (runConst c0 gx gy (n+1)).gaze_history_y =
        List.replicate (min (n+1) c0.history_size) ((gy - 1/2) * 2) := by
      rw [runConst_succ, updateFromGaze_hist_y, runConst_history_size, ihx,
        List.length_replicate, ihy, push_replicate _ _ _ hm]
      congr 1
      omega
    have hmin1 : min (n+1) c0.history_size ≠ 0 := by omega
    refine ⟨hx', hy', ?_, ?_⟩
    · rw [runConst_succ, updateFromGaze_yaw, runConst_dead_zone,
        runConst_sensitivity, runConst_smoothing, ihyaw, ← runConst_succ,
        hx', avg_replicate _ _ hmin1]
      simp only [targetYaw]
      rw [pow_succ]
      ring
    · rw [runConst_succ, updateFromGaze_pitch, runConst_dead_zone,
        runConst_sensitivity, runConst_smoothing, ihpitch, ← runConst_succ,
        hy', avg_replicate _ _ hmin1]
      simp only [targetPitch]
      rw [pow_succ]
      ring

/-- Behaviour of the geometric relaxation `y n = T * (1 - (1-σ)^n)` for
`σ ∈ (0,1]`: the distance to `T` is antitone, `y n` stays between 0 and
`T`, and `y n` converges to `T`. -/
lemma geom_relax (T σ : ℚ) (hσ0 : 0 < σ) (hσ1 : σ ≤ 1) :
    (∀ n : ℕ, |T - T * (1 - (1 - σ) ^ (n+1))| ≤ |T - T * (1 - (1 - σ) ^ n)|) ∧
    (∀ n : ℕ, min 0 T ≤ T * (1 - (1 - σ) ^ n) ∧
       T * (1 - (1 - σ) ^ n) ≤ max 0 T) ∧
    (∀ ε : ℚ, 0 < ε → ∃ N : ℕ, ∀ m : ℕ, N ≤ m →
       |T - T * (1 - (1 - σ) ^ m)| < ε) := by
  have hr0 : (0 : ℚ) ≤ 1 - σ := by linarith
  have hr1 : 1 - σ < 1 := by linarith
  have hdiff : ∀ k : ℕ, T - T * (1 - (1 - σ) ^ k) = T * (1 - σ) ^ k := by
    intro k; ring
  refine ⟨?_, ?_, ?_⟩
  · intro n
    rw [hdiff, hdiff, abs_mul, abs_mul,
      abs_of_nonneg (pow_nonneg hr0 (n+1)), abs_of_nonneg (pow_nonneg hr0 n)]
    exact mul_le_mul_of_nonneg_left
      (pow_le_pow_of_le_one hr0 hr1.le (Nat.le_succ n)) (abs_nonneg T)
  · intro n
    have hp0 : (0 : ℚ) ≤ (1 - σ) ^ n := pow_nonneg hr0 n
    have hp1 : (1 - σ) ^ n ≤ 1 := pow_le_one₀ hr0 hr1.le
    rcases le_total 0 T with hT | hT
    · rw [min_eq_left hT, max_eq_right hT]
      constructor
      · exact mul_nonneg hT (by linarith)
      · nlinarith
    · rw [min_eq_right hT, max_eq_left hT]
      constructor
      · nlinarith
      · nlinarith
  · intro ε hε
    rcases eq_or_ne T 0 with hT | hT
    · refine ⟨0, fun m _ => ?_⟩
      rw [hdiff, hT, zero_mul, abs_zero]
      exact hε
    · have hTpos : 0 < |T| := abs_pos.mpr hT
      obtain ⟨N, hN⟩ := exists_pow_lt_of_lt_one (div_pos hε hTpos) hr1
      refine ⟨N, fun m hm => ?_⟩
      rw [hdiff, abs_mul, abs_of_nonneg (pow_nonneg hr0 m)]
      have h1 : (1 - σ) ^ m ≤ (1 - σ) ^ N :=
        pow_le_pow_of_le_one hr0 hr1.le hm
      have h2 : |T| * (1 - σ) ^ m ≤ |T| * (1 - σ) ^ N :=
        mul_le_mul_of_nonneg_left h1 (abs_nonneg T)
      have h3 : |T| * (1 - σ) ^ N < |T| * (ε / |T|) :=
        mul_lt_mul_of_pos_left hN hTpos
      have h4 : |T| * (ε / |T|) = ε := by field_simp
      linarith

/-- Claim C8: from a fresh filter with `smoothing ∈ (0,1]`, feeding a
constant non-absent sample makes `yaw` and `pitch` approach their target
values monotonically (the distance to the target is antitone), stay
between 0 and the target (never overshooting), and converge to the target
as the number of updates grows. -/
theorem claimC8_monotone_convergence (c0 : Camera) (gx gy : ℚ) (n : ℕ)
    (hy0 : c0.yaw = 0) (hp0 : c0.pitch = 0)
    (hhx : c0.gaze_history_x = []) (hhy : c0.gaze_history_y = [])
    (hhs : 1 ≤ c0.history_size)
    (hs0 : 0 < c0.smoothing) (hs1 : c0.smoothing ≤ 1) :
    (|targetYaw c0 gx - (runConst c0 gx gy (n+1)).yaw| ≤
       |targetYaw c0 gx - (runConst c0 gx gy n).yaw|) ∧
    (min 0 (targetYaw c0 gx) ≤ (runConst c0 gx gy n).yaw ∧
       (runConst c0 gx gy n).yaw ≤ max 0 (targetYaw c0 gx)) ∧
    (∀ ε : ℚ, 0 < ε → ∃ N : ℕ, ∀ m : ℕ, N ≤ m →
       |targetYaw c0 gx - (runConst c0 gx gy m).yaw| < ε) ∧
    (|targetPitch c0 gy - (runConst c0 gx gy (n+1)).pitch| ≤
       |targetPitch c0 gy - (runConst c0 gx gy n).pitch|) ∧
    (min 0 (targetPitch c0 gy) ≤ (runConst c0 gx gy n).pitch ∧
       (runConst c0 gx gy n).pitch ≤ max 0 (targetPitch c0 gy)) ∧
    (∀ ε : ℚ, 0 < ε → ∃ N : ℕ, ∀ m : ℕ, N ≤ m →
       |targetPitch c0 gy - (runConst c0 gx gy m).pitch| < ε) := by
  have hyk : ∀ k : ℕ, (runConst c0 gx gy k).yaw =
      targetYaw c0 gx * (1 - (1 - c0.smoothing) ^ k) :=
    fun k => (runConst_spec c0 gx gy hy0 hp0 hhx hhy hhs k).2.2.1
  have hpk : ∀ k : ℕ, (runConst c0 gx gy k).pitch =
      targetPitch c0 gy * (1 - (1 - c0.smoothing) ^ k) :=
    fun k => (runConst_spec c0 gx gy hy0 hp0 hhx hhy hhs k).2.2.2
  obtain ⟨ga, gb, gc⟩ := geom_relax (targetYaw c0 gx) c0.smoothing hs0 hs1
  obtain ⟨pa, pb, pc⟩ := geom_relax (targetPitch c0 gy) c0.smoothing hs0 hs1
  refine ⟨?_, ?_, ?_, ?_, ?_, ?_⟩
  · rw [hyk, hyk]; exact ga n
  · rw [hyk]; exact gb n
  · intro ε hε
    obtain ⟨N, hN⟩ := gc ε hε
    exact ⟨N, fun m hm => by rw [hyk]; exact hN m hm⟩
  · rw [hpk, hpk]; exact pa n
  · rw [hpk]; exact pb n
  · intro ε hε
    obtain ⟨N, hN⟩ := pc ε hε
    exact ⟨N, fun m hm => by rw [hpk]; exact hN m hm⟩

/-- Witness for C8 at a fresh source-constructed filter, constant sample
`(1, 1/2)` and `n = 1`. -/
theorem claimC8_monotone_convergence_witness :
    (Camera.init.yaw = 0 ∧ Camera.init.pitch = 0 ∧
     Camera.init.gaze_history_x = [] ∧ Camera.init.gaze_history_y = [] ∧
     1 ≤ Camera.init.history_size ∧
     0 < Camera.init.smoothing ∧ Camera.init.smoothing ≤ 1) ∧
    ((|targetYaw Camera.init 1 - (runConst Camera.init 1 (1/2) 2).yaw| ≤
        |targetYaw Camera.init 1 - (runConst Camera.init 1 (1/2) 1).yaw|) ∧
     (min 0 (targetYaw Camera.init 1) ≤ (runConst Camera.init 1 (1/2) 1).yaw ∧
        (runConst Camera.init 1 (1/2) 1).yaw ≤ max 0 (targetYaw Camera.init 1)) ∧
     (∀ ε : ℚ, 0 < ε → ∃ N : ℕ, ∀ m : ℕ, N ≤ m →
        |targetYaw Camera.init 1 - (runConst Camera.init 1 (1/2) m).yaw| < ε) ∧
     (|targetPitch Camera.init (1/2) - (runConst Camera.init 1 (1/2) 2).pitch| ≤
        |targetPitch Camera.init (1/2) - (runConst Camera.init 1 (1/2) 1).pitch|) ∧
     (min 0 (targetPitch Camera.init (1/2)) ≤ (runConst Camera.init 1 (1/2) 1).pitch ∧
        (runConst Camera.init 1 (1/2) 1).pitch ≤ max 0 (targetPitch Camera.init (1/2))) ∧
     (∀ ε : ℚ, 0 < ε → ∃ N : ℕ, ∀ m : ℕ, N ≤ m →
        |targetPitch Camera.init (1/2) - (runConst Camera.init 1 (1/2) m).pitch| < ε)) :=
  ⟨⟨rfl, rfl, rfl, rfl, by norm_num [Camera.init], by norm_num [Camera.init],
      by norm_num [Camera.init]⟩,
    claimC8_monotone_convergence Camera.init 1 (1/2) 1 rfl rfl rfl rfl
      (by norm_num [Camera.init]) (by norm_num [Camera.init])
      (by norm_num [Camera.init])⟩
